import Mathlib

/-!
Verification development for a single-resource user CRUD service
(`server_mongodb.js`).  The request handlers, the pure validation
functions and the mongoose collection behaviour are embedded shallowly:
a JS string is a Lean `String`, the document collection is a list of
records, and each Express handler becomes a pure function from a store
and a request to a response envelope and the resulting store.  The
mongoose unique indexes on `id` and `email` declared in the schema are
modelled as a save-time backstop that rejects a write which would
violate them (status 500, as the handlers catch and map any storage
fault to 500).
-/

namespace UserCrud

/-- Whitespace test used by the JS `trim` and `\s` regex class. -/
def wsChar (c : Char) : Bool := c.isWhitespace

/-- ASCII model of the JS `toLowerCase` on a single character. -/
def lowerChar (c : Char) : Char :=
  if 65 ≤ c.toNat ∧ c.toNat ≤ 90 then Char.ofNat (c.toNat + 32) else c

/-- Model of the JS `String.prototype.toLowerCase`. -/
def jsToLower (s : String) : String := ⟨s.data.map lowerChar⟩

/-- Strip whitespace from both ends of a character list. -/
def trimList (cs : List Char) : List Char :=
  ((cs.dropWhile wsChar).reverse.dropWhile wsChar).reverse

/-- Model of the JS `String.prototype.trim`. -/
def jsTrim (s : String) : String := ⟨trimList s.data⟩

/-- Hexadecimal digit, upper or lower case, as in the character class
of the identifier regex with the `i` flag. -/
def hexChar (c : Char) : Bool :=
  (48 ≤ c.toNat && c.toNat ≤ 57) ||
    (97 ≤ c.toNat && c.toNat ≤ 102) || (65 ≤ c.toNat && c.toNat ≤ 70)

/-- Shape of position `i` in the 36-character grouped-hex identifier
layout: a dash at positions 8, 13, 18 and 23, a hex digit elsewhere. -/
def uuidPosOk (cs : List Char) (i : Nat) : Bool :=
  if i == 8 || i == 13 || i == 18 || i == 23 then cs.getD i ' ' == '-'
  else hexChar (cs.getD i ' ')

/-- Model of the anchored identifier regex
8 hex, dash, 4 hex, dash, 4 hex, dash, 4 hex, dash, 12 hex,
case-insensitive. -/
def isUuidFormat (s : String) : Bool :=
  s.data.length == 36 && (List.range 36).all (uuidPosOk s.data)

/-- Character class of the email regex used by `isValidEmail`:
neither whitespace nor the at sign. -/
def noWsNoAt (c : Char) : Bool := !c.isWhitespace && c != '@'

/-- Model of the anchored email regex: a backtracking search for a
split of the string into a nonempty class run, an at sign, a nonempty
class run, a dot, and a nonempty class run reaching the end.  Index
`i` is the position of the at sign and `j` the position of the dot. -/
def isValidEmail (email : String) : Bool :=
  let cs := email.data
  let n := cs.length
  (List.range n).any fun i =>
    (List.range n).any fun j =>
      decide (0 < i) && decide (i + 1 < j) && decide (j + 1 < n) &&
      cs.getD i ' ' == '@' && cs.getD j ' ' == '.' &&
      (cs.take i).all noWsNoAt &&
      ((cs.drop (i + 1)).take (j - (i + 1))).all noWsNoAt &&
      (cs.drop (j + 1)).all noWsNoAt

/-- Model of `isValidAge`: an integer strictly between 0 and 150. -/
def isValidAge (age : Int) : Bool := decide (0 < age ∧ age < 150)

/-- Model of `isValidName`: nonempty after trimming, and at most 100
characters before trimming (the length bound is taken on the raw
string in the source). -/
def isValidName (name : String) : Bool :=
  decide (0 < (jsTrim name).length) && decide (name.length ≤ 100)

/-- Request body for the user resource: each of the three mutable
fields may be absent (`none` models an undefined JS field). -/
structure Body where
  name : Option String
  email : Option String
  age : Option Int
deriving Repr, DecidableEq

/-- Truthiness test of a possibly absent JS string: undefined and the
empty string are falsy. -/
def strFalsy : Option String → Bool
  | none => true
  | some s => s == ""

/-- Truthiness test of a possibly absent JS number: undefined and 0
are falsy. -/
def ageFalsy : Option Int → Bool
  | none => true
  | some a => a == 0

/-- Model of `validateUser`: returns the first violation message, or
`none` when the body is valid.  In creating mode the three required
checks use JS truthiness, so a supplied-but-falsy field is reported as
missing. -/
def validateUser (user : Body) (isUpdate : Bool) : Option String :=
  if !isUpdate && strFalsy user.name then some "Name is required"
  else if !isUpdate && strFalsy user.email then some "Email is required"
  else if !isUpdate && ageFalsy user.age then some "Age is required"
  else if user.name.any (fun n => !isValidName n) then
    some "Name must be a non-empty string (max 100 chars)"
  else if user.email.any (fun e => !isValidEmail e) then
    some "Invalid email format"
  else if user.age.any (fun a => !isValidAge a) then
    some "Age must be a number between 1 and 149"
  else none

/-- Stored user document. -/
structure UserRec where
  id : String
  name : String
  email : String
  age : Int
  createdAt : String
  updatedAt : String
deriving Repr, DecidableEq

/-- Payload of a response: a single record or a list of records. -/
inductive RespData where
  | one (u : UserRec)
  | many (us : List UserRec)
deriving Repr, DecidableEq

/-- Uniform response envelope produced by every handler. -/
structure Resp where
  success : Bool
  status : Nat
  message : Option String
  error : Option String
  data : Option RespData
  count : Option Nat
deriving Repr, DecidableEq

/-- Error envelope: `success` false, no payload. -/
def errResp (status : Nat) (msg : String) : Resp :=
  { success := false, status := status, message := none,
    error := some msg, data := none, count := none }

/-- Success envelope. -/
def okResp (status : Nat) (msg : String) (d : Option RespData)
    (cnt : Option Nat) : Resp :=
  { success := true, status := status, message := some msg,
    error := none, data := d, count := cnt }

/-- The document collection, in storage order. -/
abbrev Store := List UserRec

/-- Handler of POST /users: validate in creating mode, reject a
duplicate case-folded email, then insert a fresh record whose two
timestamps are the request time.  The final guard models the mongoose
unique indexes on `id` and `email`: a save violating them throws and
is mapped to status 500 by the catch block. -/
def createUser (store : Store) (body : Body) (newId now : String) :
    Resp × Store :=
  match validateUser body false with
  | some e => (errResp 400 e, store)
  | none =>
    let emailLower := jsToLower (body.email.getD "")
    match store.find? (fun u => u.email == emailLower) with
    | some _ => (errResp 400 "Email already exists", store)
    | none =>
      let newUser : UserRec :=
        { id := newId, name := jsTrim (body.name.getD ""),
          email := emailLower, age := body.age.getD 0,
          createdAt := now, updatedAt := now }
      if store.any (fun u => u.id == newId || u.email == newUser.email) then
        (errResp 500 "Internal server error", store)
      else
        (okResp 201 "User created successfully"
          (some (RespData.one newUser)) none, store ++ [newUser])

/-- Handler of GET /users: every record, with its count. -/
def listUsers (store : Store) : Resp × Store :=
  (okResp 200 "Users retrieved successfully"
    (some (RespData.many store)) (some store.length), store)

/-- Handler of GET /users/:id. -/
def getUser (store : Store) (id : String) : Resp × Store :=
  if !isUuidFormat id then (errResp 400 "Invalid user ID format", store)
  else
    match store.find? (fun u => u.id == id) with
    | none => (errResp 404 "User not found", store)
    | some u =>
      (okResp 200 "User retrieved successfully"
        (some (RespData.one u)) none, store)

/-- Persistence of a modified document fetched under `origId`: the
mongoose save rewrites the stored document, and the unique index on
`email` rejects a write that would duplicate the email of another
document (mapped to status 500 by the catch block). -/
def saveExisting (store : Store) (origId : String) (updated : UserRec) :
    Resp × Store :=
  if store.any (fun v => v.id != origId && v.email == updated.email) then
    (errResp 500 "Internal server error", store)
  else
    (okResp 200 "User updated successfully"
      (some (RespData.one updated)) none,
     store.map (fun v => if v.id == origId then updated else v))

/-- Handler of PUT /users/:id: identifier shape check, lookup,
validation in update mode, duplicate scan when a truthy email is
supplied and its case-folded form differs from the stored one, then
truthy-guarded application of each field and a timestamp refresh. -/
def updateUserPut (store : Store) (id : String) (body : Body)
    (now : String) : Resp × Store :=
  if !isUuidFormat id then (errResp 400 "Invalid user ID format", store)
  else
    match store.find? (fun u => u.id == id) with
    | none => (errResp 404 "User not found", store)
    | some user =>
      match validateUser body true with
      | some e => (errResp 400 e, store)
      | none =>
        let emailConflict : Bool :=
          match body.email with
          | some e =>
            e != "" && jsToLower e != user.email &&
              (store.find? (fun v => v.email == jsToLower e)).isSome
          | none => false
        if emailConflict then (errResp 400 "Email already exists", store)
        else
          let u1 := if !strFalsy body.name then
            { user with name := jsTrim (body.name.getD "") } else user
          let u2 := if !strFalsy body.email then
            { u1 with email := jsToLower (body.email.getD "") } else u1
          let u3 := if !ageFalsy body.age then
            { u2 with age := body.age.getD 0 } else u2
          saveExisting store user.id { u3 with updatedAt := now }

/-- Handler of PATCH /users/:id: identifier shape check, lookup,
validation in update mode, then application of each supplied field,
with the duplicate scan run inside the email branch (after the name
was already staged on the in-memory document) when the case-folded
supplied email differs from the stored one. -/
def patchUser (store : Store) (id : String) (updates : Body)
    (now : String) : Resp × Store :=
  if !isUuidFormat id then (errResp 400 "Invalid user ID format", store)
  else
    match store.find? (fun u => u.id == id) with
    | none => (errResp 404 "User not found", store)
    | some user =>
      match validateUser updates true with
      | some e => (errResp 400 e, store)
      | none =>
        let u1 := match updates.name with
          | some n => { user with name := jsTrim n }
          | none => user
        let emailConflict : Bool :=
          match updates.email with
          | some e =>
            jsToLower e != user.email &&
              (store.find? (fun v => v.email == jsToLower e)).isSome
          | none => false
        if emailConflict then (errResp 400 "Email already exists", store)
        else
          let u2 := match updates.email with
            | some e => { u1 with email := jsToLower e }
            | none => u1
          let u3 := match updates.age with
            | some a => { u2 with age := a }
            | none => u2
          saveExisting store user.id { u3 with updatedAt := now }

/-- Handler of DELETE /users/:id: identifier shape check, then a
find-and-delete of the first matching document. -/
def deleteUser (store : Store) (id : String) : Resp × Store :=
  if !isUuidFormat id then (errResp 400 "Invalid user ID format", store)
  else
    match store.find? (fun u => u.id == id) with
    | none => (errResp 404 "User not found", store)
    | some _ =>
      (okResp 200 "User deleted successfully" none none,
       store.eraseP (fun u => u.id == id))

/-- One API operation; a create carries the identifier produced by the
generator and each mutating operation carries the request time. -/
inductive Op where
  | create (body : Body) (newId now : String)
  | listAll
  | getById (id : String)
  | replaceById (id : String) (body : Body) (now : String)
  | patchById (id : String) (body : Body) (now : String)
  | deleteById (id : String)
deriving Repr, DecidableEq

/-- Dispatch one operation against the store. -/
def step (store : Store) : Op → Resp × Store
  | Op.create body newId now => createUser store body newId now
  | Op.listAll => listUsers store
  | Op.getById id => getUser store id
  | Op.replaceById id body now => updateUserPut store id body now
  | Op.patchById id body now => patchUser store id body now
  | Op.deleteById id => deleteUser store id

/-- Store reached from the empty collection by a sequence of
operations, each applied to the store left by the previous one. -/
def runOps (ops : List Op) : Store :=
  ops.foldl (fun s op => (step s op).2) []

/-! Basic facts about the character-level model. -/

theorem toNat_ofNat_letter {n : Nat} (h1 : 97 ≤ n) (h2 : n ≤ 122) :
    (Char.ofNat n).toNat = n := by
  unfold Char.ofNat
  rw [dif_pos (by left; omega : n.isValidChar)]
  rfl

theorem lowerChar_idem (c : Char) : lowerChar (lowerChar c) = lowerChar c := by
  unfold lowerChar
  by_cases h : 65 ≤ c.toNat ∧ c.toNat ≤ 90
  · rw [if_pos h, if_neg]
    rw [toNat_ofNat_letter (by omega) (by omega)]
    omega
  · rw [if_neg h, if_neg h]

theorem jsToLower_idem (s : String) : jsToLower (jsToLower s) = jsToLower s := by
  show (⟨(s.data.map lowerChar).map lowerChar⟩ : String) = ⟨s.data.map lowerChar⟩
  rw [List.map_map]
  exact congrArg String.mk
    (List.map_congr_left fun c _ => lowerChar_idem c)

/-! Facts about the validators. -/

theorem isValidName_ne_empty {n : String} (h : isValidName n = true) :
    n ≠ "" := by
  intro he
  subst he
  exact absurd h (by decide)

theorem isValidEmail_ne_empty {e : String} (h : isValidEmail e = true) :
    e ≠ "" := by
  intro he
  subst he
  exact absurd h (by decide)

theorem isValidAge_ne_zero {a : Int} (h : isValidAge a = true) : a ≠ 0 := by
  intro he
  subst he
  exact absurd h (by decide)

theorem validateUser_update_name {b : Body} {n : String}
    (hv : validateUser b true = none) (hn : b.name = some n) :
    isValidName n = true := by
  by_contra h
  have hb : isValidName n = false := by
    cases hval : isValidName n
    · rfl
    · exact absurd hval h
  unfold validateUser at hv
  rw [hn] at hv
  simp [hb, Option.any] at hv

theorem validateUser_update_email {b : Body} {e : String}
    (hv : validateUser b true = none) (he : b.email = some e) :
    isValidEmail e = true := by
  by_contra h
  have hb : isValidEmail e = false := by
    cases hval : isValidEmail e
    · rfl
    · exact absurd hval h
  unfold validateUser at hv
  rw [he] at hv
  simp [hb, Option.any] at hv
  split at hv <;> simp at hv

theorem validateUser_update_age {b : Body} {a : Int}
    (hv : validateUser b true = none) (ha : b.age = some a) :
    isValidAge a = true := by
  by_contra h
  have hb : isValidAge a = false := by
    cases hval : isValidAge a
    · rfl
    · exact absurd hval h
  unfold validateUser at hv
  rw [ha] at hv
  simp [hb, Option.any] at hv
  split at hv
  · simp at hv
  · split at hv <;> simp at hv

/-! Equivalence of the PUT and PATCH handlers. -/

theorem put_eq_patch (store : Store) (id : String) (body : Body)
    (now : String) :
    updateUserPut store id body now = patchUser store id body now := by
  unfold updateUserPut patchUser
  cases hu : isUuidFormat id
  · simp [hu]
  · simp only [hu, Bool.not_true, Bool.false_eq_true, if_false]
    cases hf : store.find? (fun u => u.id == id)
    · simp
    · rename_i user
      simp only []
      cases hv : validateUser body true
      · simp only []
        cases hbn : body.name <;> cases hbe : body.email <;>
          cases hba : body.age <;> simp only [hbn, hbe, hba]
        all_goals {
          first
          | rfl
          | (try have hn1 : isValidName _ = true :=
               validateUser_update_name hv hbn
             try have he1 : isValidEmail _ = true :=
               validateUser_update_email hv hbe
             try have ha1 : isValidAge _ = true :=
               validateUser_update_age hv hba
             try have hn2 := isValidName_ne_empty hn1
             try have he2 := isValidEmail_ne_empty he1
             try have ha2 := isValidAge_ne_zero ha1
             simp_all [strFalsy, ageFalsy, Option.getD, bne])
        }
      · simp only []


/-! Uniqueness invariant of the collection. -/

/-- Invariant of a reachable collection state: pairwise distinct
identifiers, pairwise distinct emails, and every stored email fixed by
case folding. -/
def StoreInv (store : Store) : Prop :=
  (store.map (fun u => u.id)).Nodup ∧
  (store.map (fun u => u.email)).Nodup ∧
  ∀ u ∈ store, jsToLower u.email = u.email

theorem map_id_update {store : Store} {origId : String} {u4 : UserRec}
    (hid : u4.id = origId) :
    ((store.map (fun v => if v.id == origId then u4 else v)).map
      (fun u => u.id)) = store.map (fun u => u.id) := by
  rw [List.map_map]
  apply List.map_congr_left
  intro v _
  by_cases h : v.id = origId
  · simp [Function.comp, h, hid]
  · simp [Function.comp, h]

theorem nodup_email_update {store : Store} {origId : String} {u4 : UserRec}
    (hids : (store.map (fun u => u.id)).Nodup)
    (hem : (store.map (fun u => u.email)).Nodup)
    (hother : ∀ v ∈ store, v.id ≠ origId → v.email ≠ u4.email) :
    ((store.map (fun v => if v.id == origId then u4 else v)).map
      (fun u => u.email)).Nodup := by
  induction store with
  | nil => simp
  | cons v rest ih =>
    simp only [List.map_cons, List.nodup_cons] at hids hem
    obtain ⟨hvid, hids2⟩ := hids
    obtain ⟨hvem, hem2⟩ := hem
    by_cases h : v.id = origId
    · have hrid : ∀ w ∈ rest, w.id ≠ origId := by
        intro w hw heq
        exact hvid (List.mem_map.mpr ⟨w, hw, by rw [heq, h]⟩)
      have hrest : rest.map (fun v => if v.id == origId then u4 else v)
          = rest.map (fun v => v) := by
        apply List.map_congr_left
        intro w hw
        simp [hrid w hw]
      simp only [List.map_cons, h, beq_self_eq_true, if_true, hrest,
        List.map_id_fun', id]
      rw [List.nodup_cons]
      refine ⟨?_, hem2⟩
      intro hmem
      obtain ⟨w, hw, heq⟩ := List.mem_map.mp hmem
      exact hother w (List.mem_cons_of_mem v hw) (hrid w hw) heq
    · have hne : (v.id == origId) = false := by
        simp [h]
      simp only [List.map_cons, hne, if_false]
      rw [List.nodup_cons]
      constructor
      · intro hmem
        obtain ⟨w, hw, heq⟩ := List.mem_map.mp hmem
        obtain ⟨w0, hw0, heq0⟩ := List.mem_map.mp hw
        by_cases h2 : w0.id = origId
        · have : w = u4 := by
            rw [← heq0]
            simp [h2]
          rw [this] at heq
          exact hother v (List.mem_cons_self v rest) h heq.symm
        · have : w = w0 := by
            rw [← heq0]
            simp [h2]
          rw [this] at heq
          exact hvem (List.mem_map.mpr ⟨w0, hw0, heq⟩)
      · exact ih hids2 hem2 fun w hw hne2 =>
          hother w (List.mem_cons_of_mem v hw) hne2


theorem saveExisting_inv {store : Store} {origId : String} {u4 : UserRec}
    (hinv : StoreInv store) (hid : u4.id = origId)
    (hfold : jsToLower u4.email = u4.email) :
    StoreInv (saveExisting store origId u4).2 := by
  unfold saveExisting
  cases hb : store.any (fun v => v.id != origId && v.email == u4.email)
  · simp only [hb, Bool.false_eq_true, if_false]
    obtain ⟨hids, hem, hf⟩ := hinv
    have hother : ∀ v ∈ store, v.id ≠ origId → v.email ≠ u4.email := by
      intro v hv hne heq
      have hp := List.any_eq_false.mp hb v hv
      apply hp
      simp [hne, heq]
    refine ⟨?_, ?_, ?_⟩
    · rw [map_id_update hid]
      exact hids
    · exact nodup_email_update hids hem hother
    · intro u hu
      obtain ⟨v, hv, heq⟩ := List.mem_map.mp hu
      by_cases h : v.id = origId
      · rw [← heq]
        simp only [h, beq_self_eq_true, if_true]
        exact hfold
      · rw [← heq]
        simp only [show (v.id == origId) = false by simp [h], if_false]
        exact hf v hv
  · simp only [hb, if_true]
    exact hinv

theorem create_inv {store : Store} {body : Body} {newId now : String}
    (hinv : StoreInv store) :
    StoreInv (createUser store body newId now).2 := by
  unfold createUser
  cases hv : validateUser body false
  · simp only []
    cases hf : store.find? (fun u => u.email == jsToLower (body.email.getD ""))
    · simp only []
      cases hb : store.any (fun u =>
          u.id == newId || u.email == jsToLower (body.email.getD ""))
      · simp only [hb, Bool.false_eq_true, if_false]
        obtain ⟨hids, hem, hfold⟩ := hinv
        have hfresh : ∀ u ∈ store,
            u.id ≠ newId ∧ u.email ≠ jsToLower (body.email.getD "") := by
          intro u hu
          have hp := List.any_eq_false.mp hb u hu
          constructor
          · intro heq
            exact hp (by simp [heq])
          · intro heq
            exact hp (by simp [heq])
        refine ⟨?_, ?_, ?_⟩
        · simp only [List.map_append, List.map_cons, List.map_nil]
          rw [List.nodup_append]
          refine ⟨hids, by simp, ?_⟩
          intro x hx hx2
          obtain ⟨u, hu, heq⟩ := List.mem_map.mp hx
          simp at hx2
          exact (hfresh u hu).1 (by rw [heq, hx2])
        · simp only [List.map_append, List.map_cons, List.map_nil]
          rw [List.nodup_append]
          refine ⟨hem, by simp, ?_⟩
          intro x hx hx2
          obtain ⟨u, hu, heq⟩ := List.mem_map.mp hx
          simp at hx2
          exact (hfresh u hu).2 (by rw [heq, hx2])
        · intro u hu
          rcases List.mem_append.mp hu with h | h
          · exact hfold u h
          · simp at h
            rw [h]
            exact jsToLower_idem _
      · simp only [hb, if_true]
        exact hinv
    · simp only []
      exact hinv
  · simp only []
    exact hinv

theorem delete_inv {store : Store} {id : String} (hinv : StoreInv store) :
    StoreInv (deleteUser store id).2 := by
  unfold deleteUser
  cases hu : isUuidFormat id
  · simp only [hu, Bool.not_false, if_true]
    exact hinv
  · simp only [hu, Bool.not_true, Bool.false_eq_true, if_false]
    cases hf : store.find? (fun u => u.id == id)
    · simp only []
      exact hinv
    · simp only []
      obtain ⟨hids, hem, hfold⟩ := hinv
      have hsub : (store.eraseP (fun u => u.id == id)).Sublist store :=
        List.eraseP_sublist store
      refine ⟨?_, ?_, ?_⟩
      · exact List.Nodup.sublist (hsub.map _) hids
      · exact List.Nodup.sublist (hsub.map _) hem
      · intro u hu
        exact hfold u (hsub.subset hu)

theorem patch_inv {store : Store} {id : String} {body : Body} {now : String}
    (hinv : StoreInv store) :
    StoreInv (patchUser store id body now).2 := by
  unfold patchUser
  cases hu : isUuidFormat id
  · simp only [hu, Bool.not_false, if_true]
    exact hinv
  · simp only [hu, Bool.not_true, Bool.false_eq_true, if_false]
    cases hf : store.find? (fun u => u.id == id)
    · simp only []
      exact hinv
    · rename_i user
      have huser : user ∈ store := List.mem_of_find?_eq_some hf
      simp only []
      cases hv : validateUser body true
      · simp only []
        cases hbe : body.email
        · simp only [hbe]
          cases hbn : body.name <;> cases hba : body.age <;>
            simp only [hbn, hba] <;>
            exact saveExisting_inv hinv rfl (hinv.2.2 user huser)
        · rename_i e
          simp only [hbe]
          cases hc : (jsToLower e != user.email &&
              (store.find? (fun v => v.email == jsToLower e)).isSome)
          · simp only [hc, Bool.false_eq_true, if_false]
            cases hbn : body.name <;> cases hba : body.age <;>
              simp only [hbn, hba] <;>
              exact saveExisting_inv hinv rfl (jsToLower_idem e)
          · simp only [hc, if_true]
            exact hinv
      · simp only []
        exact hinv

theorem put_inv {store : Store} {id : String} {body : Body} {now : String}
    (hinv : StoreInv store) :
    StoreInv (updateUserPut store id body now).2 := by
  rw [put_eq_patch]
  exact patch_inv hinv

theorem step_inv (store : Store) (op : Op) (h : StoreInv store) :
    StoreInv (step store op).2 := by
  cases op with
  | create body newId now => exact create_inv h
  | listAll => exact h
  | getById id =>
    unfold step getUser
    cases hu : isUuidFormat id
    · simp only [hu, Bool.not_false, if_true]
      exact h
    · simp only [hu, Bool.not_true, Bool.false_eq_true, if_false]
      cases hf : store.find? (fun u => u.id == id) <;> simp only [] <;> exact h
  | replaceById id body now => exact put_inv h
  | patchById id body now => exact patch_inv h
  | deleteById id => exact delete_inv h

theorem foldl_inv (ops : List Op) (store : Store) (h : StoreInv store) :
    StoreInv (ops.foldl (fun s op => (step s op).2) store) := by
  induction ops generalizing store with
  | nil => exact h
  | cons op rest ih => exact ih _ (step_inv store op h)

theorem runOps_inv (ops : List Op) : StoreInv (runOps ops) :=
  foldl_inv ops [] ⟨List.nodup_nil, List.nodup_nil, by intro u hu; cases hu⟩


/-! Declarative characterization of the email regex. -/

/-- Declarative reading of the source email regex: the character list
splits into a nonempty run of characters that are neither whitespace
nor at signs, an at sign, another such nonempty run, a dot, and a
final such nonempty run. -/
def emailShape (s : String) : Prop :=
  ∃ a b c : List Char, a ≠ [] ∧ b ≠ [] ∧ c ≠ [] ∧
    (∀ ch ∈ a, noWsNoAt ch = true) ∧ (∀ ch ∈ b, noWsNoAt ch = true) ∧
    (∀ ch ∈ c, noWsNoAt ch = true) ∧
    s.data = a ++ '@' :: (b ++ '.' :: c)

theorem isValidEmail_iff_shape (s : String) :
    isValidEmail s = true ↔ emailShape s := by
  constructor
  · intro h
    unfold isValidEmail at h
    simp only [List.any_eq_true, List.mem_range, Bool.and_eq_true,
      decide_eq_true_eq, beq_iff_eq, List.all_eq_true] at h
    obtain ⟨i, hi, j, hj, ⟨⟨⟨⟨⟨⟨hpos, hij⟩, hjn⟩, hat⟩, hdot⟩, ha⟩, hb⟩, hc⟩ := h
    refine ⟨s.data.take i, (s.data.drop (i + 1)).take (j - (i + 1)),
      s.data.drop (j + 1), ?_, ?_, ?_, ha, hb, hc, ?_⟩
    · rw [← List.length_pos, List.length_take]
      omega
    · rw [← List.length_pos, List.length_take, List.length_drop]
      omega
    · rw [← List.length_pos, List.length_drop]
      omega
    · have hiL : i < s.data.length := by omega
      have hjL : j < s.data.length := by omega
      have e1 := (List.take_append_drop i s.data).symm
      have e2 : s.data.drop i = '@' :: s.data.drop (i + 1) := by
        rw [List.drop_eq_getElem_cons hiL]
        rw [← List.getD_eq_getElem s.data ' ' hiL, hat]
      have e3 := (List.take_append_drop (j - (i + 1)) (s.data.drop (i + 1))).symm
      have e4 : (s.data.drop (i + 1)).drop (j - (i + 1)) = s.data.drop j := by
        rw [List.drop_drop]
        congr 1
        omega
      have e5 : s.data.drop j = '.' :: s.data.drop (j + 1) := by
        rw [List.drop_eq_getElem_cons hjL]
        rw [← List.getD_eq_getElem s.data ' ' hjL, hdot]
      calc s.data = s.data.take i ++ s.data.drop i := e1
        _ = s.data.take i ++ ('@' :: s.data.drop (i + 1)) := by rw [e2]
        _ = s.data.take i ++ ('@' ::
            ((s.data.drop (i + 1)).take (j - (i + 1)) ++
              (s.data.drop (i + 1)).drop (j - (i + 1)))) := by rw [← e3]
        _ = s.data.take i ++ ('@' ::
            ((s.data.drop (i + 1)).take (j - (i + 1)) ++
              ('.' :: s.data.drop (j + 1)))) := by rw [e4, e5]
  · intro h
    obtain ⟨a, b, c, hA, hB, hC, ha, hb, hc, hdata⟩ := h
    have hal : 0 < a.length := List.length_pos.mpr hA
    have hbl : 0 < b.length := List.length_pos.mpr hB
    have hcl : 0 < c.length := List.length_pos.mpr hC
    have hlen : s.data.length = a.length + b.length + c.length + 2 := by
      rw [hdata]
      simp
      omega
    unfold isValidEmail
    simp only [List.any_eq_true, List.mem_range, Bool.and_eq_true,
      decide_eq_true_eq, beq_iff_eq, List.all_eq_true]
    refine ⟨a.length, by omega, a.length + 1 + b.length, by omega,
      ⟨⟨⟨⟨⟨⟨by omega, by omega⟩, by omega⟩, ?_⟩, ?_⟩, ?_⟩, ?_⟩, ?_⟩
    · rw [hdata, List.getD_append_right a ('@' :: (b ++ '.' :: c)) ' '
        a.length (le_refl _)]
      simp
    · have hsplit : s.data = (a ++ '@' :: b) ++ '.' :: c := by
        rw [hdata]
        simp
      have hL : (a ++ '@' :: b).length = a.length + 1 + b.length := by
        simp
        omega
      rw [hsplit, List.getD_append_right (a ++ '@' :: b) ('.' :: c) ' '
        (a.length + 1 + b.length) (by omega)]
      rw [hL]
      simp
    · rw [hdata, List.take_left]
      exact ha
    · have hsplit : s.data = (a ++ ['@']) ++ (b ++ '.' :: c) := by
        rw [hdata]
        simp
      have hd : s.data.drop (a.length + 1) = b ++ '.' :: c := by
        rw [hsplit]
        have : a.length + 1 = (a ++ ['@']).length := by simp
        rw [this, List.drop_left]
      rw [hd]
      have : a.length + 1 + b.length - (a.length + 1) = b.length := by omega
      rw [this, List.take_left]
      exact hb
    · have hsplit : s.data = ((a ++ '@' :: b) ++ ['.']) ++ c := by
        rw [hdata]
        simp
      have hd : s.data.drop (a.length + 1 + b.length + 1) = c := by
        rw [hsplit]
        have : a.length + 1 + b.length + 1 = ((a ++ '@' :: b) ++ ['.']).length := by
          simp
          omega
        rw [this, List.drop_left]
      rw [hd]
      exact hc


/-! Helper lemmas about creation. -/

theorem create_dup {store : Store} {body : Body} {newId now : String}
    (hv : validateUser body false = none)
    (hex : ∃ u ∈ store, u.email = jsToLower (body.email.getD "")) :
    createUser store body newId now =
      (errResp 400 "Email already exists", store) := by
  unfold createUser
  rw [hv]
  simp only []
  cases hf : store.find? (fun u => u.email == jsToLower (body.email.getD ""))
  · exfalso
    obtain ⟨u, hu, he⟩ := hex
    have := List.find?_eq_none.mp hf u hu
    simp [he] at this
  · simp only []

theorem create_success_store {store : Store} {b : Body} {newId now : String}
    (h : (createUser store b newId now).1.status = 201) :
    (createUser store b newId now).2 = store ++
      [{ id := newId, name := jsTrim (b.name.getD ""),
         email := jsToLower (b.email.getD ""), age := b.age.getD 0,
         createdAt := now, updatedAt := now }] := by
  unfold createUser at h ⊢
  cases hv : validateUser b false
  · rw [hv] at h
    simp only [] at h ⊢
    cases hf : store.find? (fun u => u.email == jsToLower (b.email.getD ""))
    · rw [hf] at h
      simp only [] at h ⊢
      cases hb : store.any (fun u =>
          u.id == newId || u.email == jsToLower (b.email.getD ""))
      · simp only [hb, Bool.false_eq_true, if_false]
      · rw [hb] at h
        simp [errResp] at h
    · rw [hf] at h
      simp [errResp] at h
  · rw [hv] at h
    simp [errResp] at h


/-! Claim theorems. -/

/-- Claim C1: for every store state and every valid input, if a record
whose stored email equals the case-folded input email already exists,
Create returns the duplicate conflict error with status 400 and
persists nothing; in particular, after one successful Create, a second
Create whose email equals the first one up to letter case fails with
the conflict error regardless of differing name and age. -/
theorem claim1_create_duplicate_conflict :
    (∀ (store : Store) (body : Body) (newId now : String),
      validateUser body false = none →
      (∃ u ∈ store, u.email = jsToLower (body.email.getD "")) →
      createUser store body newId now =
        (errResp 400 "Email already exists", store)) ∧
    (∀ (store : Store) (b1 b2 : Body) (id1 id2 t1 t2 : String),
      (createUser store b1 id1 t1).1.status = 201 →
      validateUser b2 false = none →
      jsToLower (b2.email.getD "") = jsToLower (b1.email.getD "") →
      createUser (createUser store b1 id1 t1).2 b2 id2 t2 =
        (errResp 400 "Email already exists", (createUser store b1 id1 t1).2)) := by
  constructor
  · intro store body newId now hv hex
    exact create_dup hv hex
  · intro store b1 b2 id1 id2 t1 t2 h201 hv2 heq
    apply create_dup hv2
    rw [create_success_store h201]
    refine ⟨_, List.mem_append_right store (List.mem_singleton_self _), ?_⟩
    exact heq.symm

/-- Concrete request bodies used by the witnesses. -/
def bodyJohn : Body :=
  { name := some "John Doe", email := some "John@Example.com", age := some 25 }

def bodyJane : Body :=
  { name := some "Jane", email := some "JOHN@EXAMPLE.COM", age := some 30 }

def bodyEmptyFields : Body := { name := none, email := none, age := none }

theorem claim1_witness :
    validateUser bodyJane false = none ∧
    (createUser [] bodyJohn "11111111-2222-3333-4444-555555555555"
      "t1").1.status = 201 ∧
    jsToLower (bodyJane.email.getD "") = jsToLower (bodyJohn.email.getD "") ∧
    createUser (createUser [] bodyJohn "11111111-2222-3333-4444-555555555555"
        "t1").2 bodyJane "99999999-2222-3333-4444-555555555555" "t2" =
      (errResp 400 "Email already exists",
       (createUser [] bodyJohn "11111111-2222-3333-4444-555555555555"
         "t1").2) :=
  ⟨by decide, by decide, by decide,
   claim1_create_duplicate_conflict.2 [] bodyJohn bodyJane
     "11111111-2222-3333-4444-555555555555"
     "99999999-2222-3333-4444-555555555555" "t1" "t2"
     (by decide) (by decide) (by decide)⟩

/-- Claim C2: starting from the empty store, after any sequence of the
operations no two records share an identifier and no two records share
a case-folded email. -/
theorem claim2_unique_ids_and_emails (ops : List Op) :
    ((runOps ops).map (fun u => u.id)).Nodup ∧
    ((runOps ops).map (fun u => jsToLower u.email)).Nodup := by
  obtain ⟨hids, hem, hfold⟩ := runOps_inv ops
  refine ⟨hids, ?_⟩
  rw [List.map_congr_left (fun u hu => hfold u hu)]
  exact hem

/-- Claim C3: for every identifier, body and store, the PUT handler
and the PATCH handler return the same response and leave the store in
the same state. -/
theorem claim3_put_patch_equiv (store : Store) (id : String) (body : Body)
    (now : String) :
    updateUserPut store id body now = patchUser store id body now :=
  put_eq_patch store id body now

/-- Claim C5: a syntactically malformed identifier makes each of the
four identifier-taking handlers return the malformed-identifier error
with status 400 and leave the store unchanged. -/
theorem claim5_malformed_id (store : Store) (id : String) (body : Body)
    (now : String) (h : isUuidFormat id = false) :
    getUser store id = (errResp 400 "Invalid user ID format", store) ∧
    updateUserPut store id body now =
      (errResp 400 "Invalid user ID format", store) ∧
    patchUser store id body now =
      (errResp 400 "Invalid user ID format", store) ∧
    deleteUser store id = (errResp 400 "Invalid user ID format", store) := by
  unfold getUser updateUserPut patchUser deleteUser
  simp [h]

theorem claim5_witness :
    isUuidFormat "not-a-uuid" = false ∧
    (getUser [] "not-a-uuid" = (errResp 400 "Invalid user ID format", []) ∧
     updateUserPut [] "not-a-uuid" bodyEmptyFields "t" =
       (errResp 400 "Invalid user ID format", []) ∧
     patchUser [] "not-a-uuid" bodyEmptyFields "t" =
       (errResp 400 "Invalid user ID format", []) ∧
     deleteUser [] "not-a-uuid" = (errResp 400 "Invalid user ID format", [])) :=
  ⟨by decide,
   claim5_malformed_id [] "not-a-uuid" bodyEmptyFields "t" (by decide)⟩

/-- Name of raw length 101 whose trimmed length is 100: one leading
space followed by one hundred letters. -/
def nameCx : String := ⟨' ' :: List.replicate 100 'a'⟩

/-- Claim C6 counterexample: the validator does not accept every name
whose trimmed length is between 1 and 100, because the 100-character
bound is applied to the raw string, before trimming. -/
theorem claim6_counterexample :
    ¬ (isValidName nameCx = true ↔
      (0 < (jsTrim nameCx).length ∧ (jsTrim nameCx).length ≤ 100)) := by
  decide

/-- Claim C6 amended: the validator accepts a name exactly when the
trimmed name is nonempty and the raw length is at most 100; a
100-letter name is accepted, a 101-letter name is rejected, and an
all-whitespace name is rejected. -/
theorem claim6_amended_name_valid :
    (∀ name : String, isValidName name = true ↔
      (0 < (jsTrim name).length ∧ name.length ≤ 100)) ∧
    isValidName ⟨List.replicate 100 'a'⟩ = true ∧
    isValidName ⟨List.replicate 101 'a'⟩ = false ∧
    isValidName "   " = false := by
  refine ⟨?_, by decide, by decide, by decide⟩
  intro name
  unfold isValidName
  simp

/-- Pattern claimed by the specification for emails, with the
character class taken literally as every non-whitespace character. -/
def specEmailPattern (email : String) : Bool :=
  let cs := email.data
  let n := cs.length
  (List.range n).any fun i =>
    (List.range n).any fun j =>
      decide (0 < i) && decide (i + 1 < j) && decide (j + 1 < n) &&
      cs.getD i ' ' == '@' && cs.getD j ' ' == '.' &&
      (cs.take i).all (fun c => !c.isWhitespace) &&
      ((cs.drop (i + 1)).take (j - (i + 1))).all (fun c => !c.isWhitespace) &&
      (cs.drop (j + 1)).all (fun c => !c.isWhitespace)

/-- Claim C7 counterexample: the validator is not equivalent to the
plain non-whitespace pattern of the claim, because the regex classes
also exclude the at sign: a string with two at signs matches the
claimed pattern but is rejected by the code. -/
theorem claim7_counterexample :
    ¬ (isValidEmail "a@b@c.d" = true ↔
      specEmailPattern "a@b@c.d" = true) := by
  decide

/-- Claim C7 amended: the validator accepts an email exactly when it
splits as one or more characters that are neither whitespace nor at
signs, an at sign, one or more such characters, a dot, and one or more
such characters. -/
theorem claim7_amended_email_valid (s : String) :
    isValidEmail s = true ↔ emailShape s :=
  isValidEmail_iff_shape s

/-- Claim C10: in creating mode a supplied-but-falsy field is reported
with the missing-field message of that field rather than its format or
range message: an empty name yields the name-required error, an empty
email (with a truthy name) yields the email-required error, and a zero
age (with truthy name and email) yields the age-required error. -/
theorem claim10_falsy_required (body : Body) :
    (body.name = some "" → validateUser body false = some "Name is required") ∧
    (strFalsy body.name = false → body.email = some "" →
      validateUser body false = some "Email is required") ∧
    (strFalsy body.name = false → strFalsy body.email = false →
      body.age = some 0 → validateUser body false = some "Age is required") := by
  refine ⟨?_, ?_, ?_⟩
  · intro hn
    unfold validateUser
    simp [hn, strFalsy]
  · intro hn he
    unfold validateUser
    simp only [strFalsy] at hn
    simp [hn, he, strFalsy]
  · intro hn he ha
    unfold validateUser
    simp only [strFalsy] at hn he
    simp [hn, he, ha, strFalsy, ageFalsy]

def bodyEmptyName : Body :=
  { name := some "", email := some "a@b.c", age := some 5 }

def bodyEmptyEmail : Body :=
  { name := some "Al", email := some "", age := some 5 }

def bodyZeroAge : Body :=
  { name := some "Al", email := some "a@b.c", age := some 0 }

theorem claim10_witness :
    validateUser bodyEmptyName false = some "Name is required" ∧
    validateUser bodyEmptyEmail false = some "Email is required" ∧
    validateUser bodyZeroAge false = some "Age is required" :=
  ⟨(claim10_falsy_required _).1 rfl,
   (claim10_falsy_required _).2.1 (by decide) rfl,
   (claim10_falsy_required _).2.2 (by decide) (by decide) rfl⟩


/-- Case analysis of the save of a modified document: either the
backstop rejects and the store is unchanged, or the store is rewritten
at the fetched document; a conflict error is never produced here. -/
theorem saveExisting_cases (store : Store) (origId : String) (u4 : UserRec) :
    ((saveExisting store origId u4).2 = store ∨
      (saveExisting store origId u4).2 =
        store.map (fun v => if v.id == origId then u4 else v)) ∧
    ((saveExisting store origId u4).1.error = some "Email already exists" →
      (saveExisting store origId u4).2 = store) := by
  unfold saveExisting
  cases hb : store.any (fun v => v.id != origId && v.email == u4.email)
  · simp only [hb, Bool.false_eq_true, if_false]
    refine ⟨Or.inr trivial, fun hc => ?_⟩
    simp [okResp] at hc
  · simp only [hb, if_true]
    exact ⟨Or.inl trivial, fun _ => trivial⟩

/-- Record with every supplied field applied and the timestamp
refreshed, as the specification words the all-or-nothing guarantee. -/
def fullUpdate (user : UserRec) (body : Body) (now : String) : UserRec :=
  { id := user.id,
    name := match body.name with | some n => jsTrim n | none => user.name,
    email := match body.email with
      | some e => jsToLower e
      | none => user.email,
    age := match body.age with | some a => a | none => user.age,
    createdAt := user.createdAt,
    updatedAt := now }

/-- Claim C4: an update or patch of an existing record either leaves
the store unchanged or persists the record with every supplied field
applied plus the refreshed timestamp, and a duplicate-email conflict
in the PATCH handler, raised after the name was staged on the
in-memory document, persists nothing. -/
theorem claim4_update_all_or_nothing (store : Store) (id : String)
    (body : Body) (now : String) (user : UserRec)
    (hf : store.find? (fun u => u.id == id) = some user) :
    ((patchUser store id body now).2 = store ∨
      (patchUser store id body now).2 = store.map
        (fun v => if v.id == user.id then fullUpdate user body now else v)) ∧
    ((updateUserPut store id body now).2 = store ∨
      (updateUserPut store id body now).2 = store.map
        (fun v => if v.id == user.id then fullUpdate user body now else v)) ∧
    ((patchUser store id body now).1.error = some "Email already exists" →
      (patchUser store id body now).2 = store) := by
  rw [put_eq_patch]
  have hmain : ((patchUser store id body now).2 = store ∨
      (patchUser store id body now).2 = store.map
        (fun v => if v.id == user.id then fullUpdate user body now else v)) ∧
      ((patchUser store id body now).1.error = some "Email already exists" →
        (patchUser store id body now).2 = store) := by
    unfold patchUser
    cases hu : isUuidFormat id
    · simp only [hu, Bool.not_false, if_true]
      exact ⟨Or.inl trivial, fun _ => trivial⟩
    · simp only [hu, Bool.not_true, Bool.false_eq_true, if_false]
      rw [hf]
      simp only []
      cases hv : validateUser body true
      · simp only []
        cases hbe : body.email
        · simp only [hbe]
          cases hbn : body.name <;> cases hba : body.age <;>
            simp only [hbn, hba, fullUpdate, hbe] <;>
            exact saveExisting_cases store user.id _
        · rename_i e
          simp only [hbe]
          cases hc : (jsToLower e != user.email &&
              (store.find? (fun v => v.email == jsToLower e)).isSome)
          · simp only [hc, Bool.false_eq_true, if_false]
            cases hbn : body.name <;> cases hba : body.age <;>
              simp only [hbn, hba, fullUpdate, hbe] <;>
              exact saveExisting_cases store user.id _
          · simp only [hc, if_true]
            exact ⟨Or.inl trivial, fun _ => trivial⟩
      · simp only []
        exact ⟨Or.inl trivial, fun _ => trivial⟩
  exact ⟨hmain.1, hmain.1, hmain.2⟩

/-- Concrete stored record used by the witnesses. -/
def userAda : UserRec :=
  { id := "11111111-2222-3333-4444-555555555555", name := "Ada",
    email := "ada@example.com", age := 36, createdAt := "t0",
    updatedAt := "t0" }

theorem claim4_witness :
    ([userAda].find? (fun u =>
      u.id == "11111111-2222-3333-4444-555555555555") = some userAda) ∧
    (((patchUser [userAda] "11111111-2222-3333-4444-555555555555" bodyJohn
        "t5").2 = [userAda] ∨
      (patchUser [userAda] "11111111-2222-3333-4444-555555555555" bodyJohn
        "t5").2 = [userAda].map (fun v => if v.id == userAda.id then
          fullUpdate userAda bodyJohn "t5" else v)) ∧
     ((updateUserPut [userAda] "11111111-2222-3333-4444-555555555555" bodyJohn
        "t5").2 = [userAda] ∨
      (updateUserPut [userAda] "11111111-2222-3333-4444-555555555555" bodyJohn
        "t5").2 = [userAda].map (fun v => if v.id == userAda.id then
          fullUpdate userAda bodyJohn "t5" else v)) ∧
     ((patchUser [userAda] "11111111-2222-3333-4444-555555555555" bodyJohn
        "t5").1.error = some "Email already exists" →
      (patchUser [userAda] "11111111-2222-3333-4444-555555555555" bodyJohn
        "t5").2 = [userAda])) :=
  ⟨by decide,
   claim4_update_all_or_nothing [userAda]
     "11111111-2222-3333-4444-555555555555" bodyJohn "t5" userAda (by decide)⟩

/-- Claim C8: when the supplied email case-folds to the stored email
of the fetched record, neither the PATCH nor the PUT handler raises
the duplicate conflict: with the rest of the body valid, a uniquely
stored collection and a well-formed identifier, both succeed with
status 200. -/
theorem claim8_unchanged_email_no_conflict (store : Store) (id : String)
    (body : Body) (now : String) (user : UserRec) (e : String)
    (huuid : isUuidFormat id = true)
    (hf : store.find? (fun u => u.id == id) = some user)
    (he : body.email = some e)
    (hlow : jsToLower e = user.email)
    (hv : validateUser body true = none)
    (hem : (store.map (fun u => u.email)).Nodup) :
    (patchUser store id body now).1.status = 200 ∧
    (patchUser store id body now).1.success = true ∧
    (updateUserPut store id body now).1.status = 200 ∧
    (updateUserPut store id body now).1.success = true := by
  have huser : user ∈ store := List.mem_of_find?_eq_some hf
  have hmain : (patchUser store id body now).1.status = 200 ∧
      (patchUser store id body now).1.success = true := by
    unfold patchUser
    simp only [huuid, Bool.not_true, Bool.false_eq_true, if_false]
    rw [hf]
    simp only []
    rw [hv]
    simp only []
    simp only [he]
    have hcf : (jsToLower e != user.email) = false := by
      simp [hlow]
    simp only [hcf, Bool.false_and, Bool.false_eq_true, if_false]
    have hb : store.any
        (fun v => v.id != user.id && v.email == jsToLower e) = false := by
      rw [List.any_eq_false]
      intro v hv2 hcontra
      simp only [Bool.and_eq_true, bne_iff_ne, beq_iff_eq] at hcontra
      obtain ⟨hvid, hveq⟩ := hcontra
      have hve : v.email = user.email := by rw [hveq, hlow]
      exact hvid (congrArg UserRec.id
        (List.inj_on_of_nodup_map hem hv2 huser hve))
    cases hbn : body.name <;> cases hba : body.age <;>
      simp only [hbn, hba] <;>
      (unfold saveExisting
       simp only [hb, Bool.false_eq_true, if_false, okResp]) <;>
      exact ⟨trivial, trivial⟩
  rw [put_eq_patch]
  exact ⟨hmain.1, hmain.2, hmain.1, hmain.2⟩

def bodyAdaUpper : Body :=
  { name := none, email := some "ADA@EXAMPLE.COM", age := none }

theorem claim8_witness :
    isUuidFormat "11111111-2222-3333-4444-555555555555" = true ∧
    ([userAda].find? (fun u =>
      u.id == "11111111-2222-3333-4444-555555555555") = some userAda) ∧
    bodyAdaUpper.email = some "ADA@EXAMPLE.COM" ∧
    jsToLower "ADA@EXAMPLE.COM" = userAda.email ∧
    validateUser bodyAdaUpper true = none ∧
    ([userAda].map (fun u => u.email)).Nodup ∧
    ((patchUser [userAda] "11111111-2222-3333-4444-555555555555" bodyAdaUpper
       "t6").1.status = 200 ∧
     (patchUser [userAda] "11111111-2222-3333-4444-555555555555" bodyAdaUpper
       "t6").1.success = true ∧
     (updateUserPut [userAda] "11111111-2222-3333-4444-555555555555"
       bodyAdaUpper "t6").1.status = 200 ∧
     (updateUserPut [userAda] "11111111-2222-3333-4444-555555555555"
       bodyAdaUpper "t6").1.success = true) :=
  ⟨by decide, by decide, by decide, by decide, by decide,
   by simp [userAda],
   claim8_unchanged_email_no_conflict [userAda]
     "11111111-2222-3333-4444-555555555555" bodyAdaUpper "t6" userAda
     "ADA@EXAMPLE.COM" (by decide) (by decide) (by decide) (by decide)
     (by decide) (by simp [userAda])⟩

/-- Claim C9: a PATCH with the empty field set on an existing record
succeeds and rewrites only the update timestamp of that record, with
identifier, name, email, age and creation timestamp unchanged. -/
theorem claim9_empty_patch_touches_only_updatedAt (store : Store)
    (r : UserRec) (now : String)
    (huuid : isUuidFormat r.id = true)
    (hf : store.find? (fun u => u.id == r.id) = some r)
    (hem : (store.map (fun u => u.email)).Nodup) :
    (patchUser store r.id bodyEmptyFields now).1.status = 200 ∧
    (patchUser store r.id bodyEmptyFields now).2 = store.map
      (fun v => if v.id == r.id then { r with updatedAt := now } else v) := by
  have hr : r ∈ store := List.mem_of_find?_eq_some hf
  unfold patchUser
  simp only [huuid, Bool.not_true, Bool.false_eq_true, if_false]
  rw [hf]
  simp only []
  rw [show validateUser bodyEmptyFields true = none from rfl]
  simp only [bodyEmptyFields]
  have hb : store.any (fun v => v.id != r.id && v.email == r.email)
      = false := by
    rw [List.any_eq_false]
    intro v hv2 hcontra
    simp only [Bool.and_eq_true, bne_iff_ne, beq_iff_eq] at hcontra
    obtain ⟨hvid, hveq⟩ := hcontra
    exact hvid (congrArg UserRec.id
      (List.inj_on_of_nodup_map hem hv2 hr hveq))
  unfold saveExisting
  simp only [hb, Bool.false_eq_true, if_false, okResp]
  exact ⟨trivial, trivial⟩

theorem claim9_witness :
    isUuidFormat userAda.id = true ∧
    ([userAda].find? (fun u => u.id == userAda.id) = some userAda) ∧
    ([userAda].map (fun u => u.email)).Nodup ∧
    ((patchUser [userAda] userAda.id bodyEmptyFields "t7").1.status = 200 ∧
     (patchUser [userAda] userAda.id bodyEmptyFields "t7").2 = [userAda].map
       (fun v => if v.id == userAda.id then { userAda with updatedAt := "t7" }
         else v)) :=
  ⟨by decide, by decide, by simp [userAda],
   claim9_empty_patch_touches_only_updatedAt [userAda] userAda "t7"
     (by decide) (by decide) (by simp [userAda])⟩

end UserCrud
